import Mathlib

/-!
Shallow embedding of the chidori execution SDK (`chidori-core/src/sdk/entry.rs`,
`chidori-core/src/cells/template_cell.rs`) and of the parts of the execution
kernel the SDK calls into.  Definitions carry the source's names where Lean
allows it.  Parts of the kernel that are only declared or called from the SDK
(the step driver, `ExecutionState`, the template renderer) are modelled from
the specification and say so in their doc comments.
-/

/-- `RkyvSerializedValue`, restricted to the variants exercised by the SDK code
under study (null, boolean, number, string, array, object). -/
inductive RKV where
  | Null : RKV
  | Boolean : Bool → RKV
  | Number : Int → RKV
  | Str : String → RKV
  | Arr : List RKV → RKV
  | Object : List (String × RKV) → RKV

/-- `OperationFnOutput` from `primitives/operation.rs`: the value an operation
produced together with its captured stdout and stderr lines. -/
structure OperationFnOutput where
  output : RKV
  stdout : List String
  stderr : List String

/-- Build an `OperationFnOutput` carrying just a value (`with_value`). -/
def OperationFnOutput.with_value (v : RKV) : OperationFnOutput :=
  ⟨v, [], []⟩

/-- `PlaybackState` from `sdk/entry.rs` lines 29-33. -/
inductive PlaybackState where
  | Paused : PlaybackState
  | Running : PlaybackState
deriving DecidableEq

/-- `UserInteractionMessage` from `sdk/entry.rs` lines 203-212: exactly the
seven variants the enum declares there. -/
inductive UserInteractionMessage where
  | Play : UserInteractionMessage
  | Pause : UserInteractionMessage
  | UserAction : String → UserInteractionMessage
  | RevertToState : Option (Nat × Nat) → UserInteractionMessage
  | ReloadCells : UserInteractionMessage
  | FetchCells : UserInteractionMessage
  | MutateCell : UserInteractionMessage
deriving DecidableEq

/-- The Rust-source constructor name of a `UserInteractionMessage` value. -/
def UserInteractionMessage.variantName : UserInteractionMessage → String
  | .Play => "Play"
  | .Pause => "Pause"
  | .UserAction _ => "UserAction"
  | .RevertToState _ => "RevertToState"
  | .ReloadCells => "ReloadCells"
  | .FetchCells => "FetchCells"
  | .MutateCell => "MutateCell"

/-- The observable mutable fields of `InstancedEnvironment` that the `run`
loop's message handler touches: the execution head `(branch, counter)`, the
playback state, and (for stating graph-membership facts) the set of node ids
present in the execution graph `db`. -/
structure InstancedEnvironment where
  execution_head_state_id : Nat × Nat
  playback_state : PlaybackState
  db_node_ids : List (Nat × Nat)
deriving DecidableEq

/-- The message `match` of `InstancedEnvironment::run` (`entry.rs` lines
130-149).  `Play` sets playback to `Running`; `Pause` sets it to `Paused`;
`ReloadCells` calls `reload_cells`, whose only effect on these fields is a
possible move of the execution head via `upsert_cell` — passed in as the
`reload` argument; `RevertToState(Some(id))` sets the execution head to `id`
unconditionally, with no membership check against `db` and no error path;
`RevertToState(None)` and the catch-all arm (`UserAction`, `FetchCells`,
`MutateCell`) leave the environment unchanged. -/
def handleMessage (reload : InstancedEnvironment → Nat × Nat)
    (env : InstancedEnvironment) (m : UserInteractionMessage) :
    InstancedEnvironment :=
  match m with
  | .Play => { env with playback_state := .Running }
  | .Pause => { env with playback_state := .Paused }
  | .ReloadCells => { env with execution_head_state_id := reload env }
  | .RevertToState (some id) => { env with execution_head_state_id := id }
  | .RevertToState none => env
  | .UserAction _ => env
  | .FetchCells => env
  | .MutateCell => env

/-- The `Running` branch of the `run` loop body (`entry.rs` lines 153-159):
`step()` moves the execution head to the id it returns, and if the returned
output list is empty the loop sets playback to `Paused`. -/
def runTickRunning (env : InstancedEnvironment)
    (stepResult : (Nat × Nat) × List (Nat × OperationFnOutput)) :
    InstancedEnvironment :=
  let env' := { env with execution_head_state_id := stepResult.1 }
  if stepResult.2.isEmpty then
    { env' with playback_state := .Paused }
  else
    env'

/-- Modelled from the spec: `DependencyReference` (the reason an edge exists,
`Value` or `FunctionInvocation`, carrying the shared name); its internals are
not under study, only that it is the payload of `DefinitionGraphUpdated`. -/
inductive DependencyReference where
  | Value : String → DependencyReference
  | FunctionInvocation : String → DependencyReference

/-- Modelled from the spec: `MergedStateHistory`, the wire format of merged
history — a list of `(op_id, last_known_SV_or_absent)` pairs obtained by
walking ancestors of a node. -/
structure MergedStateHistory where
  history : List (Nat × Option RKV)

/-- Modelled from the spec: a cell declaration, reduced to the two features
`load_cells` and `reload_cells` observe — an optional name (`get_cell_name`)
and its content, compared for structural equality (`prev_cell.cell != cell`). -/
structure Cell where
  name : Option String
  content : String
deriving DecidableEq

/-- `get_cell_name` as used by `Chidori::load_cells`: the optional name of a
cell declaration. -/
def get_cell_name (c : Cell) : Option String :=
  c.name

/-- `CellHolder` from `sdk/entry.rs` lines 240-246. -/
structure CellHolder where
  cell : Cell
  op_id : Option Nat
  applied_at : Option (Nat × Nat)
  needs_update : Bool
deriving DecidableEq

/-- `EventsFromRuntime` from `sdk/entry.rs` lines 232-238: exactly the four
variants the enum declares there. -/
inductive EventsFromRuntime where
  | DefinitionGraphUpdated : List (Nat × Nat × List DependencyReference) → EventsFromRuntime
  | ExecutionGraphUpdated : List ((Nat × Nat) × (Nat × Nat)) → EventsFromRuntime
  | ExecutionStateChange : MergedStateHistory → EventsFromRuntime
  | CellsUpdated : List CellHolder → EventsFromRuntime

/-- The Rust-source constructor name of an `EventsFromRuntime` value. -/
def EventsFromRuntime.variantName : EventsFromRuntime → String
  | .DefinitionGraphUpdated _ => "DefinitionGraphUpdated"
  | .ExecutionGraphUpdated _ => "ExecutionGraphUpdated"
  | .ExecutionStateChange _ => "ExecutionStateChange"
  | .CellsUpdated _ => "CellsUpdated"

/-- The events `InstancedEnvironment::step` sends (`entry.rs` lines 176-179),
in order, given the graph elements and merged history it reads from `db`. -/
def stepEmittedEvents (elements : List ((Nat × Nat) × (Nat × Nat)))
    (merged : MergedStateHistory) : List EventsFromRuntime :=
  [.ExecutionGraphUpdated elements, .ExecutionStateChange merged]

/-- The events `InstancedEnvironment::upsert_cell` sends (`entry.rs` lines
190-194), in order. -/
def upsertCellEmittedEvents (merged : MergedStateHistory)
    (depGraph : List (Nat × Nat × List DependencyReference))
    (elements : List ((Nat × Nat) × (Nat × Nat))) : List EventsFromRuntime :=
  [.ExecutionStateChange merged, .DefinitionGraphUpdated depGraph,
   .ExecutionGraphUpdated elements]

/-- First pass of `InstancedEnvironment::reload_cells` (`entry.rs` lines
85-93): walk the shared cell holders, and for each one either call
`upsert_cell(cell, op_id)` (when `needs_update` is set) or replay the stored
`(applied_at.unwrap(), op_id.unwrap())` pair.  `upsert` is the SDK's
`upsert_cell`, threaded through an abstract state `σ`; `none` models the
`unwrap` panic on a holder that was never applied.  Besides the collected
`ids` list the model returns the list of cells passed to `upsert`, so that
upsert multiplicity is observable. -/
def reloadIdsLoop {σ : Type} (upsert : σ → Cell → Option Nat → σ × ((Nat × Nat) × Nat)) :
    σ → List CellHolder → Option (σ × List ((Nat × Nat) × Nat) × List Cell)
  | s, [] => some (s, [], [])
  | s, h :: rest =>
    match h.needs_update with
    | true =>
      match upsert s h.cell h.op_id with
      | (s', r) =>
        match reloadIdsLoop upsert s' rest with
        | some (s'', ids, log) => some (s'', r :: ids, h.cell :: log)
        | none => none
    | false =>
      match h.applied_at, h.op_id with
      | some a, some o =>
        match reloadIdsLoop upsert s rest with
        | some (s'', ids, log) => some (s'', (a, o) :: ids, log)
        | none => none
      | _, _ => none

/-- Second pass of `reload_cells` (`entry.rs` lines 96-101): write the
collected `(applied_at, op_id)` pairs back into the holders and clear every
`needs_update` flag. -/
def applyIds : List CellHolder → List ((Nat × Nat) × Nat) → List CellHolder
  | [], _ => []
  | _ :: _, [] => []
  | h :: rest, (a, o) :: ids =>
    { h with applied_at := some a, op_id := some o, needs_update := false } ::
      applyIds rest ids

/-- `InstancedEnvironment::reload_cells` (`entry.rs` lines 78-107) on the
shared cell list: both passes composed; `none` models a panic on an
unapplied holder that is not flagged `needs_update`. -/
def reload_cells {σ : Type} (upsert : σ → Cell → Option Nat → σ × ((Nat × Nat) × Nat))
    (s : σ) (cells : List CellHolder) :
    Option (σ × List CellHolder × List Cell) :=
  match reloadIdsLoop upsert s cells with
  | some (s', ids, log) => some (s', applyIds cells ids, log)
  | none => none

/-- The `HashMap` that `Chidori::load_cells` collects (`entry.rs` lines
351-357), modelled as its lookup function: keyed by `get_cell_name`, with the
later of two same-named holders overwriting the earlier, exactly as
`collect::<HashMap<_, _>>()` does. -/
def buildNameMap (prev : List CellHolder) : Option String → Option CellHolder :=
  prev.foldl (fun m h => fun k => if k = get_cell_name h.cell then some h else m k)
    (fun _ => none)

/-- `Chidori::load_cells` (`entry.rs` lines 349-386): diff the incoming cell
declarations against the previously loaded holders by name.  A same-named,
identical cell keeps its previous holder; a same-named, changed cell keeps the
previous `op_id` but is flagged `needs_update` with `applied_at = None`; an
unmatched cell gets a fresh holder with `op_id = None`. -/
def load_cells (prev : List CellHolder) (cells : List Cell) : List CellHolder :=
  let m := buildNameMap prev
  cells.map fun cell =>
    match m (get_cell_name cell) with
    | some prev_cell =>
      if prev_cell.cell ≠ cell then
        { cell := cell, op_id := prev_cell.op_id, applied_at := none, needs_update := true }
      else
        prev_cell
    | none =>
      { cell := cell, op_id := none, applied_at := none, needs_update := true }

/-- The last previously loaded holder whose cell name matches `k` — the
reference reading of the collected name map. -/
def lastMatch (prev : List CellHolder) (k : Option String) : Option CellHolder :=
  prev.reverse.find? fun h => get_cell_name h.cell = k

/-- Modelled from the spec: an operation node as the step driver sees it —
the `globals` bucket of its input signature, the names its output signature
publishes as `Value`, and its effect, given the resolved globals mapping.
(`OperationNode` and the step driver live outside the files under study.) -/
structure Operation where
  globals : List String
  outputs : List String
  effect : List (String × RKV) → RKV

/-- Modelled from the spec: `ExecutionState`, the immutable per-tick snapshot —
operation table, per-op output map, fresh-output set and function-name table
(the dependency graph is derived from the operation table on demand). -/
structure ExecutionState where
  operation_by_id : List (Nat × Operation)
  state : List (Nat × RKV)
  fresh : List Nat
  function_names : List (String × Nat)

/-- Modelled from the spec: `ExecutionState::new()`, the empty snapshot. -/
def ExecutionState.new : ExecutionState :=
  ⟨[], [], [], []⟩

/-- `state_get(op_id)`: the most recent output recorded for an operation. -/
def ExecutionState.state_get (s : ExecutionState) (id : Nat) : Option RKV :=
  (s.state.find? fun q => q.1 = id).map (·.2)

/-- Modelled from the spec: the producer of a global `name` — the first
operation (ascending op id) whose output signature publishes `name` as a
`Value`. -/
def producerOf (s : ExecutionState) (name : String) : Option Nat :=
  (s.operation_by_id.find? fun p => p.2.outputs.contains name).map (·.1)

/-- Modelled from the spec (eligibility rule 1): a global `name` is satisfied
at `s` iff its producer has a value in `s.state` and is in `s.fresh`, or the
name resolves to a function handle. -/
def satisfiedGlobal (s : ExecutionState) (name : String) : Bool :=
  (match producerOf s name with
   | some u => (s.state.any fun q => q.1 = u) && s.fresh.contains u
   | none => false)
  || s.function_names.any fun q => q.1 = name

/-- Modelled from the spec (eligibility rule): an operation is ready iff every
global in its input signature is satisfied and the op itself is not in the
fresh set from the previous tick. -/
def readyOp (s : ExecutionState) (id : Nat) (op : Operation) : Bool :=
  (op.globals.all fun name => satisfiedGlobal s name) && !(s.fresh.contains id)

/-- Modelled from the spec: resolve the value bound to a global `name` — the
field `name` of its producer's recorded output object. -/
def resolvedValue (s : ExecutionState) (name : String) : Option RKV :=
  match producerOf s name with
  | some u =>
    match s.state_get u with
    | some (RKV.Object fields) => (fields.find? fun q => q.1 = name).map (·.2)
    | _ => none
  | none => none

/-- Modelled from the spec: assemble the globals mapping handed to a firing
operation's effect. -/
def assembleGlobals (s : ExecutionState) (op : Operation) : List (String × RKV) :=
  op.globals.filterMap fun name => (resolvedValue s name).map fun v => (name, v)

/-- Modelled from the spec: the direct consumers of operation `u` — every
operation one of whose input globals is published by `u`. -/
def consumersOf (s : ExecutionState) (u : Nat) : List Nat :=
  match (s.operation_by_id.find? fun p => p.1 = u).map (·.2) with
  | some opu =>
    (s.operation_by_id.filter fun p =>
      p.2.globals.any fun name => opu.outputs.contains name).map (·.1)
  | none => []

/-- Modelled from the spec (step driver, spec section 4.7): fire every ready
operation in ascending op-id order, drop from `state` every fresh op whose
direct consumers all fired, insert the new outputs, and set `fresh` to the set
of ops that fired.  Returns the successor snapshot and the output list. -/
def stepState (s : ExecutionState) : ExecutionState × List (Nat × RKV) :=
  let fired := (s.operation_by_id.filter fun p => readyOp s p.1 p.2).map (·.1)
  let outs := s.operation_by_id.filterMap fun p =>
    if fired.contains p.1 then some (p.1, p.2.effect (assembleGlobals s p.2)) else none
  let kept := s.state.filter fun q =>
    !(s.fresh.contains q.1 && (consumersOf s q.1).all fun v => fired.contains v)
  let state' := (kept.filter fun q => !(fired.contains q.1)) ++ outs
  ({ s with state := state', fresh := fired }, outs)

/-- `ExecutionStateEvaluation` from `execution_state.rs` as consumed by the
SDK: a lookup either yields a `Complete` snapshot or reports that a step is
still `Executing` for that id. -/
inductive ExecutionStateEvaluation where
  | Complete : ExecutionState → ExecutionStateEvaluation
  | Executing : ExecutionState → ExecutionStateEvaluation

/-- `InstancedEnvironment::get_state` (`entry.rs` lines 164-169), given the
result of `db.get_state_at_id` at the current execution head: a `Complete`
snapshot is returned as is, while `Executing` yields `ExecutionState::new()`. -/
def get_state (ev : ExecutionStateEvaluation) : ExecutionState :=
  match ev with
  | .Complete s => s
  | .Executing _ => ExecutionState.new

/-- Modelled from the spec: `InputType` of a typed input slot; the template
compiler only uses `InputType::String`. -/
inductive InputType where
  | StringT : InputType
  | FunctionT : InputType

/-- Modelled from the spec: `InputItemConfiguration`, an optional type tag and
an optional default value for one input slot. -/
structure InputItemConfiguration where
  ty : Option InputType
  default : Option RKV

/-- Modelled from the spec: `InputSignature` with its three buckets of named
slots — globals, positional args and kwargs. -/
structure InputSignature where
  globals : List (String × InputItemConfiguration)
  args : List (String × InputItemConfiguration)
  kwargs : List (String × InputItemConfiguration)

/-- `InputSignature::new()`: all three buckets empty. -/
def InputSignature.new : InputSignature :=
  ⟨[], [], []⟩

/-- Modelled from the spec: `OutputItemConfiguration` — a produced `Value` or a
published `Function` with its own input signature, emitted events and
triggers. -/
inductive OutputItemConfiguration where
  | Value : OutputItemConfiguration
  | Function : InputSignature → List String → List String → OutputItemConfiguration

/-- Modelled from the spec: `OutputSignature`, named values and named
functions. -/
structure OutputSignature where
  globals : List (String × OutputItemConfiguration)
  functions : List (String × OutputItemConfiguration)

/-- `OutputSignature::new()`: empty. -/
def OutputSignature.new : OutputSignature :=
  ⟨[], []⟩

/-- `TemplateCell` from `cells/mod.rs` as used by `template_cell`: an optional
name and the template body. -/
structure TemplateCell where
  name : Option String
  body : String

/-- `OperationNode` as constructed by the cell compilers: name, the two
signatures and the effect closure `(state, argument, args, kwargs)`. -/
structure OperationNode where
  name : Option String
  input_signature : InputSignature
  output_signature : OutputSignature
  effect : ExecutionState → RKV → Option RKV → Option RKV → OperationFnOutput

/-- Read a placeholder name up to the closing double brace: returns the name
characters and the remainder after the closing braces. -/
def splitClose : List Char → Option (List Char × List Char)
  | [] => none
  | '}' :: '}' :: rest => some ([], rest)
  | c :: rest =>
    match splitClose rest with
    | some (nm, r2) => some (c :: nm, r2)
    | none => none

/-- Strip leading and trailing spaces from a placeholder name. -/
def trimSpaces (cs : List Char) : List Char :=
  ((cs.dropWhile fun c => c = ' ').reverse.dropWhile fun c => c = ' ').reverse

/-- Modelled from the spec: how a looked-up value renders inside a template —
a missing placeholder renders as the empty string. -/
def renderValue : Option RKV → String
  | some (.Str s) => s
  | some (.Number n) => toString n
  | some (.Boolean b) => toString b
  | _ => ""

/-- Look a placeholder name up in the globals data object. -/
def rkvLookup (data : RKV) (k : String) : Option RKV :=
  match data with
  | .Object fields => (fields.find? fun q => q.1 = k).map (·.2)
  | _ => none

/-- Modelled from the spec: the template renderer
(`chidori_prompt_format::templating::templates::render_template_prompt`) on the
character list, fuelled by the input length — each double-brace placeholder is
replaced by its looked-up value, or by the empty string when the name is
absent from the supplied globals. -/
def renderCharsFuel (data : RKV) : Nat → List Char → List Char
  | 0, cs => cs
  | _ + 1, [] => []
  | fuel + 1, '{' :: '{' :: rest =>
    match splitClose rest with
    | some (nm, r2) =>
      (renderValue (rkvLookup data (String.mk (trimSpaces nm)))).data
        ++ renderCharsFuel data fuel r2
    | none => '{' :: '{' :: renderCharsFuel data fuel rest
  | fuel + 1, c :: rest => c :: renderCharsFuel data fuel rest

/-- Modelled from the spec: render a template body against a globals data
object; missing placeholders render empty. -/
def renderTemplate (body : String) (data : RKV) : String :=
  String.mk (renderCharsFuel data body.data.length body.data)

/-- Modelled from the spec: the placeholder scanner
(`analyze_referenced_partials`) — every double-brace placeholder name in the
body, fuelled by the input length. -/
def collectNamesFuel : Nat → List Char → List String
  | 0, _ => []
  | _ + 1, [] => []
  | fuel + 1, '{' :: '{' :: rest =>
    match splitClose rest with
    | some (nm, r2) => String.mk (trimSpaces nm) :: collectNamesFuel fuel r2
    | none => []
  | fuel + 1, _ :: rest => collectNamesFuel fuel rest

/-- The distinct placeholder names of a template body (the scanner's schema
items, a map keyed by name). -/
def extractPlaceholders (body : String) : List String :=
  (collectNamesFuel body.data.length body.data).eraseDups

/-- The data object handed to the renderer by the template cell's effect
(`template_cell.rs` lines 47-55): the `globals` field of an object input when
present, `Null` for an object without one, and the input itself otherwise. -/
def templateEffectData (x : RKV) : RKV :=
  match x with
  | .Object m =>
    match (m.find? fun q => q.1 = "globals").map (·.2) with
    | some g => g
    | none => .Null
  | _ => x

/-- `template_cell` (`template_cell.rs` lines 11-61): compile a template cell
into an operation node.  Every placeholder becomes a typed `String` global in
the input signature; a named cell publishes one `Function` entry under its
name, built over `InputSignature::new()`; the effect renders the body against
the `globals` of its input and returns the rendered string. -/
def template_cell (cell : TemplateCell) : OperationNode :=
  { name := cell.name
    input_signature :=
      { globals := (extractPlaceholders cell.body).map fun k =>
          (k, { ty := some InputType.StringT, default := none })
        args := []
        kwargs := [] }
    output_signature :=
      { globals := []
        functions :=
          match cell.name with
          | some n => [(n, OutputItemConfiguration.Function InputSignature.new [] [])]
          | none => [] }
    effect := fun _ x _ _ =>
      OperationFnOutput.with_value
        (.Str (renderTemplate cell.body (templateEffectData x))) }

/-- Cell A of `test_execute_cells_with_global_dependency`: the code cell
`x = 20` — no input globals, publishes `x`, and its effect returns the object
mapping `x` to `20`. -/
def opCellA : Operation :=
  ⟨[], ["x"], fun _ => .Object [("x", .Number 20)]⟩

/-- Cell B of `test_execute_cells_with_global_dependency`: the code cell
`y = x + 1` — one input global `x`, publishes `y`, and its effect returns the
object mapping `y` to the bound value of `x` plus one. -/
def opCellB : Operation :=
  ⟨["x"], ["y"], fun g =>
    match (g.find? fun q => q.1 = "x").map (·.2) with
    | some (RKV.Number n) => .Object [("y", .Number (n + 1))]
    | _ => .Null⟩

/-- The initial snapshot of the two-cell chain test: both operations upserted
(op ids 0 and 1, in upsert order), nothing executed yet. -/
def twoCellChainState : ExecutionState :=
  ⟨[(0, opCellA), (1, opCellB)], [], [], []⟩

/-- The template cell of `test_template_cell`: named `test`, body
`Hello, {{ name }}!`. -/
def tHello : TemplateCell :=
  ⟨some "test", "Hello, \x7b\x7b name \x7d\x7d!"⟩

/-- A concrete `upsert_cell` stand-in for exercising `reload_cells`: threads a
counter, returning a fresh `(applied_at, op_id)` pair on every call. -/
def countingUpsert : Nat → Cell → Option Nat → Nat × ((Nat × Nat) × Nat) :=
  fun n _ o => (n + 1, ((0, n + 1), o.getD n))

/-- A previously loaded holder used to exercise `load_cells`: a cell named `a`
with content `v1`, applied at `(0, 1)` as op 0. -/
def prevHolderA : CellHolder :=
  ⟨⟨some "a", "v1"⟩, some 0, some (0, 1), false⟩

/-- The reference reading of the `load_cells` diff, written from the claim's
three cases over the last same-named previously loaded holder: identical cell
kept as the previous holder; changed cell keeps the previous op id but is
flagged with no application site; unmatched cell gets a fresh flagged
holder. -/
def expectedHolder (prev : List CellHolder) (cell : Cell) : CellHolder :=
  match lastMatch prev (get_cell_name cell) with
  | some p => if p.cell = cell then p else ⟨cell, p.op_id, none, true⟩
  | none => ⟨cell, none, none, true⟩

/-- C1: One-hop propagation on the two-cell chain of
`test_execute_cells_with_global_dependency` (cell A assigns `x = 20`, cell B
computes `y = x + 1`): after the first `step()` the state maps op 0 to the
object `x = 20` and has no entry for op 1; after the second `step()` the entry
for op 0 is gone and the state maps op 1 to the object `y = 21` — the consumer
fires exactly one tick after its producer. -/
theorem c1_one_hop_propagation :
    (stepState twoCellChainState).1.state_get 0 = some (.Object [("x", .Number 20)])
      ∧ (stepState twoCellChainState).1.state_get 1 = none
      ∧ (stepState (stepState twoCellChainState).1).1.state_get 0 = none
      ∧ (stepState (stepState twoCellChainState).1).1.state_get 1
          = some (.Object [("y", .Number 21)]) :=
  ⟨rfl, rfl, rfl, rfl⟩

/-- C2: Empty-tick quiescence — when playback is `Running` and `step()` returns
an empty output list, the loop body sets playback to `Paused`; and from
`Paused`, no message other than `Play` brings playback back to `Running`, so no
further step is taken until a `Play` message arrives. -/
theorem c2_empty_tick_auto_pauses (reload : InstancedEnvironment → Nat × Nat)
    (env : InstancedEnvironment) (newHead : Nat × Nat)
    (out : List (Nat × OperationFnOutput))
    (_hrun : env.playback_state = .Running) (hempty : out = []) :
    (runTickRunning env (newHead, out)).playback_state = .Paused
      ∧ ∀ m : UserInteractionMessage, m ≠ .Play →
          (handleMessage reload (runTickRunning env (newHead, out)) m).playback_state
            = .Paused := by
  subst hempty
  have h1 : (runTickRunning env (newHead, [])).playback_state = .Paused := rfl
  refine ⟨h1, fun m hm => ?_⟩
  cases m with
  | Play => exact absurd rfl hm
  | Pause => rfl
  | UserAction s => exact h1
  | RevertToState o => cases o with
    | none => exact h1
    | some id => exact h1
  | ReloadCells => exact h1
  | FetchCells => exact h1
  | MutateCell => exact h1

/-- C2 witness: the theorem applied to a concrete running environment and the
empty step output. -/
theorem c2_empty_tick_auto_pauses_witness :
    (runTickRunning ⟨(0, 0), .Running, [(0, 0)]⟩ ((0, 1), [])).playback_state = .Paused
      ∧ (handleMessage (fun e => e.execution_head_state_id)
            (runTickRunning ⟨(0, 0), .Running, [(0, 0)]⟩ ((0, 1), []))
            .ReloadCells).playback_state = .Paused := by
  have h := c2_empty_tick_auto_pauses (fun e => e.execution_head_state_id)
    ⟨(0, 0), .Running, [(0, 0)]⟩ (0, 1) [] rfl rfl
  exact ⟨h.1, h.2 .ReloadCells (by decide)⟩

/-- C5 counterexample: reverting to the id `(5, 5)`, which is not among the
nodes of the execution graph (here only `(0, 0)` exists), still moves the
execution head to `(5, 5)` — the handler returns no error and the state does
change, contradicting the claim. -/
theorem c5_counterexample :
    ((5, 5) ∉ ((⟨(0, 0), .Paused, [(0, 0)]⟩ : InstancedEnvironment)).db_node_ids)
      ∧ (handleMessage (fun e => e.execution_head_state_id)
            ⟨(0, 0), .Paused, [(0, 0)]⟩
            (.RevertToState (some (5, 5)))).execution_head_state_id = (5, 5)
      ∧ ((5, 5) : Nat × Nat) ≠ (0, 0) :=
  ⟨by decide, rfl, by decide⟩

/-- C5 (amended): a `RevertToState(Some(id))` message unconditionally sets the
execution head to `id` — no existence check against the execution graph is
performed and no error is returned (the handler has no error path) — while
playback state and the graph itself are untouched; `RevertToState(None)`
changes nothing. -/
theorem c5_revert_to_state_behaviour (reload : InstancedEnvironment → Nat × Nat)
    (env : InstancedEnvironment) (id : Nat × Nat) :
    (handleMessage reload env (.RevertToState (some id))).execution_head_state_id = id
      ∧ (handleMessage reload env (.RevertToState (some id))).playback_state
          = env.playback_state
      ∧ (handleMessage reload env (.RevertToState (some id))).db_node_ids
          = env.db_node_ids
      ∧ handleMessage reload env (.RevertToState none) = env :=
  ⟨rfl, rfl, rfl, rfl⟩

/-- C6: the `UserInteractionMessage` enum declared in `entry.rs` has exactly
the seven variants `Play`, `Pause`, `UserAction`, `RevertToState`,
`ReloadCells`, `FetchCells`, `MutateCell` — in particular no `Step` and no
`FetchStateAt` variant exists, although the debugger constructs both — and the
`run` loop's handler leaves the environment unchanged on `UserAction`,
`FetchCells` and `MutateCell` (its catch-all arm). -/
theorem c6_message_variants (m : UserInteractionMessage) :
    m.variantName ∈ ["Play", "Pause", "UserAction", "RevertToState", "ReloadCells",
        "FetchCells", "MutateCell"]
      ∧ m.variantName ≠ "Step"
      ∧ m.variantName ≠ "FetchStateAt"
      ∧ (∀ (reload : InstancedEnvironment → Nat × Nat) (env : InstancedEnvironment)
            (s : String),
          handleMessage reload env (.UserAction s) = env
            ∧ handleMessage reload env .FetchCells = env
            ∧ handleMessage reload env .MutateCell = env) := by
  refine ⟨?_, ?_, ?_, fun reload env s => ⟨rfl, rfl, rfl⟩⟩ <;> cases m <;>
    simp only [UserInteractionMessage.variantName] <;> decide

/-- C7: the `EventsFromRuntime` enum declared in `entry.rs` has exactly the
four variants `DefinitionGraphUpdated`, `ExecutionGraphUpdated`,
`ExecutionStateChange`, `CellsUpdated` — `UpdateExecutionHead`, `StateAtId`,
`ExecutionStateCellsViewUpdated` and `ReceivedChatMessage` do not exist,
although the debugger matches on all four — and on a graph change `step` emits
only `ExecutionGraphUpdated` then `ExecutionStateChange`, while `upsert_cell`
emits `ExecutionStateChange`, `DefinitionGraphUpdated`,
`ExecutionGraphUpdated` (neither emits `CellsUpdated` or any head update). -/
theorem c7_event_variants (e : EventsFromRuntime) :
    e.variantName ∈ ["DefinitionGraphUpdated", "ExecutionGraphUpdated",
        "ExecutionStateChange", "CellsUpdated"]
      ∧ e.variantName ≠ "UpdateExecutionHead"
      ∧ e.variantName ≠ "StateAtId"
      ∧ e.variantName ≠ "ExecutionStateCellsViewUpdated"
      ∧ e.variantName ≠ "ReceivedChatMessage"
      ∧ (∀ elements merged,
          (stepEmittedEvents elements merged).map EventsFromRuntime.variantName
            = ["ExecutionGraphUpdated", "ExecutionStateChange"])
      ∧ (∀ merged depGraph elements,
          (upsertCellEmittedEvents merged depGraph elements).map
              EventsFromRuntime.variantName
            = ["ExecutionStateChange", "DefinitionGraphUpdated",
               "ExecutionGraphUpdated"]) := by
  refine ⟨?_, ?_, ?_, ?_, ?_, fun a b => rfl, fun a b c => rfl⟩ <;> cases e <;>
    simp only [EventsFromRuntime.variantName] <;> decide

/-- C10: whenever the execution-graph lookup at the current head reports
`Executing`, `InstancedEnvironment::get_state` returns `ExecutionState::new()`
— a brand-new snapshot with empty operation table, empty output map and empty
fresh set — regardless of the in-flight snapshot, while a `Complete` lookup
returns its snapshot unchanged. -/
theorem c10_get_state_executing_returns_new (s : ExecutionState) :
    get_state (.Executing s) = ExecutionState.new
      ∧ (get_state (.Executing s)).operation_by_id = []
      ∧ (get_state (.Executing s)).state = []
      ∧ (get_state (.Executing s)).fresh = []
      ∧ (∀ s', get_state (.Complete s') = s') :=
  ⟨rfl, rfl, rfl, rfl, fun _ => rfl⟩

/-- C3: for every template cell the compiled operation's effect returns
`SV::String` of the rendered template; a placeholder absent from the supplied
globals renders as the empty string for an arbitrary globals object lacking
the name; and the body `Hello, {{ name }}!` invoked with an empty object (the
unit test's input) or with an empty `globals` object yields exactly
`Hello, !`. -/
theorem c3_template_render :
    (∀ (cell : TemplateCell) (st : ExecutionState) (x : RKV) (a k : Option RKV),
        ((template_cell cell).effect st x a k).output
          = .Str (renderTemplate cell.body (templateEffectData x)))
      ∧ (∀ g : List (String × RKV), (g.find? fun q => q.1 = "name") = none →
          ((template_cell tHello).effect ExecutionState.new
              (.Object [("globals", .Object g)]) none none).output
            = .Str "Hello, !")
      ∧ ((template_cell tHello).effect ExecutionState.new (.Object []) none none).output
          = .Str "Hello, !"
      ∧ ((template_cell tHello).effect ExecutionState.new
            (.Object [("globals", .Object [])]) none none).output
          = .Str "Hello, !" := by
  refine ⟨fun cell st x a k => rfl, ?_, rfl, rfl⟩
  intro g hg
  have hl : rkvLookup (.Object g) "name" = none := by
    simp [rkvLookup, hg]
  calc ((template_cell tHello).effect ExecutionState.new
          (.Object [("globals", .Object g)]) none none).output
      = .Str ("Hello, " ++ renderValue (rkvLookup (.Object g) "name") ++ "!") := rfl
    _ = .Str ("Hello, " ++ renderValue none ++ "!") := by rw [hl]
    _ = .Str "Hello, !" := rfl

/-- C3 witness: the theorem's absent-placeholder part applied to the empty
globals object. -/
theorem c3_template_render_witness :
    ((template_cell tHello).effect ExecutionState.new
        (.Object [("globals", .Object [])]) none none).output = .Str "Hello, !" :=
  c3_template_render.2.1 [] rfl

/-- C4 counterexample: the named template cell `test` with body
`Hello, {{ name }}!` has `name` among its placeholders, yet its published
`Function` entry is built over `InputSignature::new()`, whose `kwargs` bucket
is empty and in particular does not accept `name` — refuting the claim that
the callable's input signature accepts the template's placeholders as
kwargs. -/
theorem c4_counterexample :
    tHello.name = some "test"
      ∧ "name" ∈ extractPlaceholders tHello.body
      ∧ (template_cell tHello).output_signature.functions
          = [("test", OutputItemConfiguration.Function InputSignature.new [] [])]
      ∧ InputSignature.new.kwargs = []
      ∧ ((InputSignature.new.kwargs.map Prod.fst).contains "name") = false :=
  ⟨rfl, by decide, rfl, rfl, rfl⟩

/-- C4 (amended): a named template cell's output signature contains exactly
one `Function` entry, under the cell's name, built over the empty
`InputSignature::new()` (no kwargs, args or globals); an unnamed template
cell's output signature contains no `Function` entry; the placeholders appear
instead as typed `String` globals of the operation's own input signature. -/
theorem c4_named_template_function_entry (cell : TemplateCell) :
    (∀ n, cell.name = some n →
        (template_cell cell).output_signature.functions
          = [(n, OutputItemConfiguration.Function InputSignature.new [] [])]
          ∧ InputSignature.new.kwargs = []
          ∧ InputSignature.new.args = []
          ∧ InputSignature.new.globals = [])
      ∧ (cell.name = none → (template_cell cell).output_signature.functions = [])
      ∧ (template_cell cell).input_signature.globals
          = (extractPlaceholders cell.body).map
              (fun k => (k, { ty := some InputType.StringT, default := none })) := by
  obtain ⟨name, body⟩ := cell
  refine ⟨fun n hn => ?_, fun hn => ?_, rfl⟩
  · cases hn; exact ⟨rfl, rfl, rfl, rfl⟩
  · cases hn; rfl

/-- C4 witness: the amended theorem applied to the named cell `test`. -/
theorem c4_named_template_function_entry_witness :
    (template_cell tHello).output_signature.functions
      = [("test", OutputItemConfiguration.Function InputSignature.new [] [])] :=
  ((c4_named_template_function_entry tHello).1 "test" rfl).1

/-- C8: for every shared cell list, when `reload_cells` succeeds it returns
one holder per input holder; every returned holder has `needs_update = false`
and some op id; a holder that was not flagged keeps its cell and its previous
`(applied_at, op_id)` pair; and the cells handed to `upsert_cell` are exactly
the flagged ones, each exactly once, in order. -/
theorem c8_reload_cells_postconditions {σ : Type}
    (upsert : σ → Cell → Option Nat → σ × ((Nat × Nat) × Nat)) :
    ∀ (cells : List CellHolder) (s s' : σ) (cells' : List CellHolder) (log : List Cell),
      reload_cells upsert s cells = some (s', cells', log) →
      cells'.length = cells.length
        ∧ (∀ h ∈ cells', h.needs_update = false ∧ h.op_id.isSome = true)
        ∧ (∀ p ∈ cells.zip cells', p.2.cell = p.1.cell ∧
            (p.1.needs_update = false →
              p.2.op_id = p.1.op_id ∧ p.2.applied_at = p.1.applied_at))
        ∧ log = (cells.filter fun c => c.needs_update).map (fun c => c.cell) := by
  intro cells
  induction cells with
  | nil =>
    intro s s' cells' log h
    simp only [reload_cells, reloadIdsLoop, applyIds, Option.some.injEq,
      Prod.mk.injEq] at h
    obtain ⟨h1, h2, h3⟩ := h
    subst h2; subst h3
    exact ⟨rfl, by intro x hx; simp at hx, by intro p hp; simp at hp, by simp⟩
  | cons c rest ih =>
    intro s s' cells' log h
    rcases hflag : c.needs_update with _ | _
    · rcases ha : c.applied_at with _ | a
      · simp only [reload_cells, reloadIdsLoop, hflag, ha] at h
        exact Option.noConfusion h
      · rcases ho : c.op_id with _ | o
        · simp only [reload_cells, reloadIdsLoop, hflag, ha, ho] at h
          exact Option.noConfusion h
        · rcases hrest : reloadIdsLoop upsert s rest with _ | ⟨s3, ids3, log3⟩
          · simp only [reload_cells, reloadIdsLoop, hflag, ha, ho, hrest] at h
            exact Option.noConfusion h
          · simp only [reload_cells, reloadIdsLoop, hflag, ha, ho, hrest,
              Option.some.injEq, Prod.mk.injEq] at h
            obtain ⟨h1, h2, h3⟩ := h
            subst h1; subst h2; subst h3
            have hrc : reload_cells upsert s rest
                = some (s3, applyIds rest ids3, log3) := by
              unfold reload_cells
              rw [hrest]
            obtain ⟨ihA, ihB, ihC, ihD⟩ := ih s s3 (applyIds rest ids3) log3 hrc
            simp only [applyIds]
            refine ⟨by simp [ihA], ?_, ?_, ?_⟩
            · intro x hx
              rcases List.mem_cons.mp hx with hx | hx
              · subst hx; exact ⟨rfl, rfl⟩
              · exact ihB x hx
            · intro p hp
              rw [List.zip_cons_cons] at hp
              rcases List.mem_cons.mp hp with hp | hp
              · subst hp
                exact ⟨rfl, fun _ => ⟨ho.symm, ha.symm⟩⟩
              · exact ihC p hp
            · simp only [List.filter, hflag]
              exact ihD
    · rcases hup : upsert s c.cell c.op_id with ⟨s1, ra, ro⟩
      rcases hrest : reloadIdsLoop upsert s1 rest with _ | ⟨s3, ids3, log3⟩
      · simp only [reload_cells, reloadIdsLoop, hflag, hup, hrest] at h
        exact Option.noConfusion h
      · simp only [reload_cells, reloadIdsLoop, hflag, hup, hrest,
          Option.some.injEq, Prod.mk.injEq] at h
        obtain ⟨h1, h2, h3⟩ := h
        subst h1; subst h2; subst h3
        have hrc : reload_cells upsert s1 rest
            = some (s3, applyIds rest ids3, log3) := by
          unfold reload_cells
          rw [hrest]
        obtain ⟨ihA, ihB, ihC, ihD⟩ := ih s1 s3 (applyIds rest ids3) log3 hrc
        simp only [applyIds]
        refine ⟨by simp [ihA], ?_, ?_, ?_⟩
        · intro x hx
          rcases List.mem_cons.mp hx with hx | hx
          · subst hx; exact ⟨rfl, rfl⟩
          · exact ihB x hx
        · intro p hp
          rw [List.zip_cons_cons] at hp
          rcases List.mem_cons.mp hp with hp | hp
          · subst hp
            refine ⟨rfl, fun hcontra => ?_⟩
            rw [hflag] at hcontra
            exact absurd hcontra (by decide)
          · exact ihC p hp
        · simp only [List.filter, hflag, List.map_cons]
          rw [ihD]

/-- C8 witness: the theorem applied to a two-holder list (one flagged, one
already applied) under the counting upsert stand-in. -/
theorem c8_reload_cells_postconditions_witness :
    (([⟨⟨some "a", "v1"⟩, some 3, some (0, 1), false⟩,
       ⟨⟨some "a", "v1"⟩, some 0, some (0, 1), false⟩] : List CellHolder).length
        = ([⟨⟨some "a", "v1"⟩, some 3, none, true⟩, prevHolderA] : List CellHolder).length)
      ∧ ([(⟨some "a", "v1"⟩ : Cell)]
          = (([⟨⟨some "a", "v1"⟩, some 3, none, true⟩,
               prevHolderA] : List CellHolder).filter
              (fun c => c.needs_update)).map (fun c => c.cell)) := by
  have h := c8_reload_cells_postconditions countingUpsert
    [⟨⟨some "a", "v1"⟩, some 3, none, true⟩, prevHolderA] 0 1
    [⟨⟨some "a", "v1"⟩, some 3, some (0, 1), false⟩,
     ⟨⟨some "a", "v1"⟩, some 0, some (0, 1), false⟩]
    [⟨some "a", "v1"⟩] rfl
  exact ⟨h.1, h.2.2.2⟩

/-- The collected name map agrees pointwise with the last same-named holder,
relative to an arbitrary initial map. -/
theorem foldl_nameMap_apply (prev : List CellHolder)
    (m : Option String → Option CellHolder) (k : Option String) :
    prev.foldl (fun m h => fun k => if k = get_cell_name h.cell then some h else m k) m k
      = ((prev.reverse.find? fun h => get_cell_name h.cell = k).or (m k)) := by
  induction prev generalizing m with
  | nil => rfl
  | cons c rest ih =>
    rw [List.foldl_cons, ih, List.reverse_cons, List.find?_append]
    rcases hf : rest.reverse.find? (fun h => get_cell_name h.cell = k) with _ | h
    · rw [hf]
      by_cases hk : k = get_cell_name c.cell
      · have hk' : get_cell_name c.cell = k := hk.symm
        simp only [Option.none_or]
        rw [if_pos hk]
        simp [List.find?_cons, hk']
      · have hk' : ¬(get_cell_name c.cell = k) := fun hcontra => hk hcontra.symm
        simp only [Option.none_or]
        rw [if_neg hk]
        simp [List.find?_cons, hk']
    · rw [hf]; rfl

/-- Looking a name up in the `HashMap` collected by `load_cells` returns the
last previously loaded holder bearing that name. -/
theorem buildNameMap_apply (prev : List CellHolder) (k : Option String) :
    buildNameMap prev k = lastMatch prev k := by
  unfold buildNameMap lastMatch
  rw [foldl_nameMap_apply, Option.or_none]

/-- C9: `load_cells` maps every incoming cell to the holder predicted by the
claim's three diffing cases against the last previously loaded holder of the
same name — an identical same-named cell keeps the previous holder unchanged,
a changed same-named cell keeps the previous op id but is flagged
`needs_update` with `applied_at = None`, and a cell with no same-named
predecessor gets a fresh flagged holder with no op id. -/
theorem c9_load_cells_diffing (prev : List CellHolder) (cells : List Cell) :
    load_cells prev cells = cells.map (expectedHolder prev)
      ∧ (∀ c p, lastMatch prev (get_cell_name c) = some p → p.cell = c →
          expectedHolder prev c = p)
      ∧ (∀ c p, lastMatch prev (get_cell_name c) = some p → p.cell ≠ c →
          expectedHolder prev c = ⟨c, p.op_id, none, true⟩)
      ∧ (∀ c, lastMatch prev (get_cell_name c) = none →
          expectedHolder prev c = ⟨c, none, none, true⟩) := by
  refine ⟨?_, ?_, ?_, ?_⟩
  · unfold load_cells
    apply List.map_congr_left
    intro cell _
    rw [buildNameMap_apply]
    rcases hm : lastMatch prev (get_cell_name cell) with _ | p
    · simp only [expectedHolder, hm]
    · by_cases hc : p.cell = cell
      · simp only [expectedHolder, hm, hc]
        simp
      · simp only [expectedHolder, hm]
        rw [if_pos hc, if_neg hc]
  · intro c p hp hc
    simp only [expectedHolder, hp]
    rw [if_pos hc]
  · intro c p hp hc
    simp only [expectedHolder, hp]
    rw [if_neg hc]
  · intro c hp
    simp only [expectedHolder, hp]

/-- C9 witness: the theorem applied to one previous holder and one same-named,
changed cell. -/
theorem c9_load_cells_diffing_witness :
    expectedHolder [prevHolderA] ⟨some "a", "v2"⟩
        = ⟨⟨some "a", "v2"⟩, some 0, none, true⟩
      ∧ load_cells [prevHolderA] [⟨some "a", "v2"⟩]
          = [(⟨some "a", "v2"⟩ : Cell)].map (expectedHolder [prevHolderA]) := by
  have h := c9_load_cells_diffing [prevHolderA] [⟨some "a", "v2"⟩]
  exact ⟨h.2.2.1 ⟨some "a", "v2"⟩ prevHolderA rfl (by decide), h.1⟩
